import Mathlib

/-!
Verification of sngrep's capture manager (`src/capture/capture.c`) and SDP
dissector (`packet_sdp.c` / `packet_sdp.h`) against the repository
specification.  The C code is shallowly embedded: GLib string helpers are
modelled over `List Char` / `String`, machine integers as `Nat` with explicit
`% 2 ^ w` at the points where the C code casts or can wrap, and undefined
behaviour (division by zero, dereferencing a NULL media pointer, reading past
a string's terminator) is modelled by returning `none`.
-/

/-- ASCII lower-casing of a single character, as `g_ascii_tolower` does:
only the twenty-six ASCII capital letters are mapped. -/
def asciiLower (c : Char) : Char :=
  if 'A' ≤ c ∧ c ≤ 'Z' then Char.ofNat (c.toNat + 32) else c

/-- Lower-case every character of a string (ASCII only). -/
def asciiLowerStr (s : String) : String :=
  String.mk (s.toList.map asciiLower)

/-- `g_ascii_strcasecmp a b == 0`: equality of the ASCII-lower-cased strings.
For non-ASCII characters `g_ascii_strcasecmp` compares the raw bytes; the
model compares code points, which agrees on all inputs used here. -/
def gAsciiCaseEq (a b : String) : Bool :=
  asciiLowerStr a == asciiLowerStr b

/-- Characters the C library's `isspace` accepts (the `"C"` locale),
skipped by `strtoul` before the number. -/
def cIsSpace (c : Char) : Bool :=
  c = ' ' ∨ c = '\t' ∨ c = '\n' ∨ c = '\x0b' ∨ c = '\x0c' ∨ c = '\r'

/-- Accumulate leading decimal digits, stopping at the first non-digit,
exactly as `strtoul(s, NULL, 10)` consumes its subject sequence. -/
def parseUlongDigits : List Char → Nat → Nat
  | [], acc => acc
  | c :: t, acc =>
    if c.isDigit then parseUlongDigits t (acc * 10 + (c.toNat - 48)) else acc

/-- `strtoul(s, NULL, 10)` on a 64-bit platform: skip leading whitespace,
accept an optional sign (a minus negates modulo 2^64), parse leading decimal
digits (zero when there are none), clamp to `ULONG_MAX` on overflow. -/
def cStrtoul (s : String) : Nat :=
  match s.toList.dropWhile cIsSpace with
  | '-' :: t => (2 ^ 64 - min (parseUlongDigits t 0) (2 ^ 64 - 1)) % 2 ^ 64
  | '+' :: t => min (parseUlongDigits t 0) (2 ^ 64 - 1)
  | l => min (parseUlongDigits l 0) (2 ^ 64 - 1)

/-- Does `pat` occur at the head of `l`? (Helper for substring search.) -/
def startsWithChars : List Char → List Char → Bool
  | _, [] => true
  | [], _ :: _ => false
  | c :: t, p :: q => c = p && startsWithChars t q

/-- Index of the first occurrence of `pat` in `l`, as `strstr` finds it. -/
def findSubList : List Char → List Char → Option Nat
  | l, pat =>
    if startsWithChars l pat then some 0
    else
      match l with
      | [] => none
      | _ :: t => (findSubList t pat).map (· + 1)

/-- Splitting loop of `g_strsplit`: while more than one token may still be
produced and the delimiter occurs, cut a token; the remainder becomes the
last token. `fuel` counts the tokens still allowed. -/
def gStrsplitGo (fuel : Nat) (s : List Char) (delim : List Char) : List (List Char) :=
  match fuel with
  | 0 => [s]
  | 1 => [s]
  | n + 1 =>
    match findSubList s delim with
    | none => [s]
    | some i => s.take i :: gStrsplitGo n (s.drop (i + delim.length)) delim

/-- `g_strsplit (s, delim, max_tokens)`: the empty string yields an empty
vector; otherwise at most `maxTokens` pieces are produced (the last piece
holding the unsplit remainder); `maxTokens = 0` means unlimited, for which
`length s + 1` pieces always suffice. -/
def gStrsplit (s : String) (delim : String) (maxTokens : Nat) : List String :=
  if s = "" then []
  else
    (gStrsplitGo (if maxTokens = 0 then s.toList.length + 1 else maxTokens)
      s.toList delim.toList).map String.mk

/-- Splitting loop of `g_strsplit_set`: cut at every occurrence of any
delimiter character, keeping empty tokens between adjacent delimiters. -/
def splitOnAnyChar (delims : List Char) : List Char → List (List Char)
  | [] => [[]]
  | c :: t =>
    if c ∈ delims then [] :: splitOnAnyChar delims t
    else
      match splitOnAnyChar delims t with
      | [] => [[c]]
      | h :: r => (c :: h) :: r

/-- `g_strsplit_set (s, delimiters, -1)`: the empty string yields an empty
vector; otherwise split at every delimiter character. -/
def gStrsplitSet (s : String) (delims : List Char) : List String :=
  if s = "" then [] else (splitOnAnyChar delims s.toList).map String.mk

/-! ## SDP data model (`packet_sdp.h`) -/

/-- `enum PacketSdpMediaType` from `packet_sdp.h`. -/
inductive PacketSdpMediaType where
  | unknown
  | audio
  | video
  | text
  | application
  | message
  | image
deriving DecidableEq, Repr

/-- `struct _PacketSdpConnection`: the connection address parsed from a
`c=` line.  `g_utf8_strncpy`'s truncation at `ADDRESSLEN` characters (the
constant lives in a header outside `src/`) is not modelled; every address in
the claims is far shorter than any plausible buffer. -/
structure PacketSdpConnection where
  address : String
deriving DecidableEq, Repr

/-- `Address` value built by `address_new(ip, port)`. -/
structure Address where
  ip : String
  port : Nat
deriving DecidableEq, Repr

/-- `struct _PacketSdpFormat`: RTP payload id plus optional encoding name
and alias (NULL pointers are `none`). -/
structure PacketSdpFormat where
  id : Nat
  name : Option String
  «alias» : Option String
deriving DecidableEq, Repr

/-- `struct _PacketSdpMedia`.  `address` is `none` while the zero-filled
value from `g_malloc0` has not been overwritten by `address_new`. -/
structure PacketSdpMedia where
  type : PacketSdpMediaType
  sconn : Option PacketSdpConnection
  rtpport : Nat
  rtcpport : Nat
  address : Option Address
  channel : Option String
  formats : List PacketSdpFormat
deriving DecidableEq, Repr

/-- `struct _PacketSdpData` (the protocol id header field is constant and
omitted). -/
structure PacketSdpData where
  sconn : Option PacketSdpConnection
  medias : List PacketSdpMedia
deriving DecidableEq, Repr

/-- The static `formats[]` table of well-known RTP encodings. -/
def formats : List PacketSdpFormat :=
  [ ⟨0, some "PCMU/8000", some "g711u"⟩,
    ⟨3, some "GSM/8000", some "gsm"⟩,
    ⟨4, some "G723/8000", some "g723"⟩,
    ⟨5, some "DVI4/8000", some "dvi"⟩,
    ⟨6, some "DVI4/16000", some "dvi"⟩,
    ⟨7, some "LPC/8000", some "lpc"⟩,
    ⟨8, some "PCMA/8000", some "g711a"⟩,
    ⟨9, some "G722/8000", some "g722"⟩,
    ⟨10, some "L16/44100", some "l16"⟩,
    ⟨11, some "L16/44100", some "l16"⟩,
    ⟨12, some "QCELP/8000", some "qcelp"⟩,
    ⟨13, some "CN/8000", some "cn"⟩,
    ⟨14, some "MPA/90000", some "mpa"⟩,
    ⟨15, some "G728/8000", some "g728"⟩,
    ⟨16, some "DVI4/11025", some "dvi"⟩,
    ⟨17, some "DVI4/22050", some "dvi"⟩,
    ⟨18, some "G729/8000", some "g729"⟩,
    ⟨25, some "CelB/90000", some "celb"⟩,
    ⟨26, some "JPEG/90000", some "jpeg"⟩,
    ⟨28, some "nv/90000", some "nv"⟩,
    ⟨31, some "H261/90000", some "h261"⟩,
    ⟨32, some "MPV/90000", some "mpv"⟩,
    ⟨33, some "MP2T/90000", some "mp2t"⟩,
    ⟨34, some "H263/90000", some "h263"⟩ ]

/-- The static `media_types[]` table mapping SDP media names to types. -/
def media_types : List (String × PacketSdpMediaType) :=
  [ ("audio", PacketSdpMediaType.audio),
    ("video", PacketSdpMediaType.video),
    ("text", PacketSdpMediaType.text),
    ("application", PacketSdpMediaType.application),
    ("message", PacketSdpMediaType.message),
    ("image", PacketSdpMediaType.image) ]

/-- Scan of `media_types[]` performed by `packet_sdp_media_type_str`. -/
def mediaTypeStrLookup : List (String × PacketSdpMediaType) → PacketSdpMediaType → Option String
  | [], _ => none
  | p :: rest, t => if p.2 = t then some p.1 else mediaTypeStrLookup rest t

/-- `packet_sdp_media_type_str`: first table entry whose type matches,
`NULL` (`none`) otherwise. -/
def packet_sdp_media_type_str (t : PacketSdpMediaType) : Option String :=
  mediaTypeStrLookup media_types t

/-- Scan of `media_types[]` performed by `packet_sdp_media_type`
(case-insensitive comparison). -/
def mediaTypeLookup : List (String × PacketSdpMediaType) → String → PacketSdpMediaType
  | [], _ => PacketSdpMediaType.unknown
  | p :: rest, s => if gAsciiCaseEq s p.1 then p.2 else mediaTypeLookup rest s

/-- `packet_sdp_media_type`: case-insensitive lookup of the media name,
`SDP_MEDIA_UNKNOWN` when no table entry matches. -/
def packet_sdp_media_type (media : String) : PacketSdpMediaType :=
  mediaTypeLookup media_types media

/-- `packet_sdp_standard_format`: first `formats[]` entry with the given id. -/
def packet_sdp_standard_format (code : Nat) : Option PacketSdpFormat :=
  formats.find? (fun f => f.id = code)

/-- The format record the media loop builds for one `<fmt>` token: the
static table entry for a well-known code, otherwise a fresh zero-filled
record carrying only the id. -/
def sdpFormatOfToken (tok : String) : PacketSdpFormat :=
  let code := cStrtoul tok % 2 ^ 32
  match packet_sdp_standard_format code with
  | some f => f
  | none => ⟨code, none, none⟩

/-- `packet_sdp_dissect_media`: split `m=<media> <port> <proto> <fmt>` into
at most four fields, fail (`NULL`) with fewer than four, otherwise build the
media record and append one format per `<fmt>` token. -/
def packet_sdp_dissect_media (sconn : Option PacketSdpConnection) (line : String) :
    Option PacketSdpMedia :=
  let media_data := gStrsplit line " " 4
  if media_data.length < 4 then none
  else
    let rtpport := cStrtoul (media_data.get! 1) % 2 ^ 16
    let mtype := packet_sdp_media_type (media_data.get! 0)
    let addr := sconn.map (fun c => Address.mk c.address rtpport)
    let fmtTokens := gStrsplit (media_data.get! 3) " " 0
    some
      { type := mtype
        sconn := none
        rtpport := rtpport
        rtcpport := 0
        address := addr
        channel := none
        formats := fmtTokens.foldl (fun acc tok => acc ++ [sdpFormatOfToken tok]) [] }

/-- Dissection state: the session data built so far plus the C variable
`media` of `packet_dissector_sdp_dissect`, the media record the current
lines refer to.  The C code appends each media to `sdp->medias` as soon as
it is created and then mutates it in place through `media`; the model keeps
the record under construction in `current` and flushes it into `medias`
when the next `m=` line arrives (or at the end), which yields the same
final list. -/
structure SdpState where
  sconn : Option PacketSdpConnection
  medias : List PacketSdpMedia
  current : Option PacketSdpMedia
deriving DecidableEq, Repr

/-- Move the media under construction into the media list. -/
def sdpFlush (s : SdpState) : SdpState :=
  { sconn := s.sconn
    medias := s.medias ++ (match s.current with | some m => [m] | none => [])
    current := none }

/-- `packet_sdp_dissect_connection`: split `c=<nettype> <addrtype> <addr>`
into at most three fields; with fewer than three do nothing; otherwise store
the address at session level when no media is current, else on the current
media, rebuilding its RTP address from the new connection address and its
RTP port. -/
def packet_sdp_dissect_connection (s : SdpState) (line : String) : SdpState :=
  let conn_data := gStrsplit line " " 3
  if conn_data.length < 3 then s
  else
    let conn : PacketSdpConnection := ⟨conn_data.get! 2⟩
    match s.current with
    | none => { s with sconn := some conn }
    | some m =>
      { s with
        current := some { m with sconn := some conn
                                 address := some ⟨conn.address, m.rtpport⟩ } }

/-- Deliver an `a=rtpmap` name to the first format record of the media with
the matching payload id (the loop in `packet_sdp_dissect_attribute` breaks
after the first hit); the C writes the same string into `name` and `alias`. -/
def sdpFormatsSetName : List PacketSdpFormat → Nat → String → List PacketSdpFormat
  | [], _, _ => []
  | f :: rest, code, nm =>
    if f.id = code then { f with name := some nm, «alias» := some nm } :: rest
    else f :: sdpFormatsSetName rest code nm

/-- Delimiters `" :/"` of `g_strsplit_set` in the attribute dissector. -/
def sdpAttrDelims : List Char := [' ', ':', '/']

/-- `packet_sdp_dissect_attribute` acting on the current media pointer.
Returns `none` where the C dereferences a NULL `media` (`rtcp`, `channel`,
or an `rtpmap` with a non-standard code while no media is current);
otherwise returns the updated current media. -/
def packet_sdp_dissect_attribute (cur : Option PacketSdpMedia) (line : String) :
    Option (Option PacketSdpMedia) :=
  let rtpattr := gStrsplitSet line sdpAttrDelims
  if rtpattr.length < 2 then some cur
  else if gAsciiCaseEq (rtpattr.get! 0) "rtpmap" then
    if rtpattr.length < 3 then some cur
    else
      let code := cStrtoul (rtpattr.get! 1) % 2 ^ 32
      match packet_sdp_standard_format code with
      | some _ => some cur
      | none =>
        match cur with
        | none => none
        | some m =>
          some (some { m with formats := sdpFormatsSetName m.formats code (rtpattr.get! 2) })
  else if gAsciiCaseEq (rtpattr.get! 0) "rtcp" then
    match cur with
    | none => none
    | some m => some (some { m with rtcpport := cStrtoul (rtpattr.get! 1) % 2 ^ 16 })
  else if gAsciiCaseEq (rtpattr.get! 0) "channel" then
    match cur with
    | none => none
    | some m => some (some { m with channel := some (rtpattr.get! 1) })
  else some cur

/-- One iteration of the line loop of `packet_dissector_sdp_dissect`: switch
on the first character and hand `line + 2` to the per-kind dissector.
`none` models undefined behaviour: `line + 2` reaches past the terminator of
a one-character line, or the attribute dissector dereferences a NULL media. -/
def sdpStepLine (s : SdpState) (line : String) : Option SdpState :=
  match line.toList with
  | [] => some s
  | c :: rest =>
    if c = 'c' then
      if rest = [] then none
      else some (packet_sdp_dissect_connection s (String.mk (rest.drop 1)))
    else if c = 'm' then
      if rest = [] then none
      else
        let s' := sdpFlush s
        match packet_sdp_dissect_media s'.sconn (String.mk (rest.drop 1)) with
        | some m => some { s' with current := some m }
        | none => some s'
    else if c = 'a' then
      if rest = [] then none
      else (packet_sdp_dissect_attribute s.current (String.mk (rest.drop 1))).map
        (fun cur' => { s with current := cur' })
    else some s

/-- Run the line loop from the zero-initialised `PacketSdpData`. -/
def sdpRunLines (lines : List String) : Option SdpState :=
  List.foldlM sdpStepLine ⟨none, [], none⟩ lines

/-- The `PacketSdpData` attached to the packet once the loop finishes. -/
def sdpFinalize (s : SdpState) : PacketSdpData :=
  { sconn := s.sconn, medias := (sdpFlush s).medias }

/-- Dissect an already-split list of SDP lines. -/
def sdpDissectLines (lines : List String) : Option PacketSdpData :=
  (sdpRunLines lines).map sdpFinalize

/-- `packet_dissector_sdp_dissect`: an empty payload attaches no SDP data
(the C returns the input bytes untouched); otherwise split the payload on
`"\r\n"` and run the line loop. -/
def packet_dissector_sdp_dissect (payload : String) : Option PacketSdpData :=
  if payload = "" then none
  else sdpDissectLines (gStrsplit payload "\r\n" 0)

/-! ## Capture manager model (`src/capture/capture.c`) -/

/-- Modelled from the spec: the capture mode enum of `capture.h` (the header
is not under `src/`); the spec states `mode ∈ {live, offline}`, matching the
`CAPTURE_MODE_OFFLINE` test in `capture.c` that treats every non-offline
input as live. -/
inductive CaptureMode where
  | online
  | offline
deriving DecidableEq, Repr

/-- One attached `CaptureInput` as `capture.c` observes it: its mode, whether
its GSource has already been destroyed (an offline source self-destroys at
EOF), its byte counters, and the outcome `capture_input_filter` reports for
a given filter expression (`false` models the `== 0` failure return). -/
structure CaptureInput where
  mode : CaptureMode
  sourceDestroyed : Bool
  totalSize : Nat
  loadedSize : Nat
  filterOk : String → Bool

/-- The `CaptureManager` fields the claims touch: attached inputs, the
paused flag, and the stored filter string (`NULL` is `none`). -/
structure CaptureManager where
  inputs : List CaptureInput
  paused : Bool
  filter : Option String

/-- The input loop of `capture_manager_set_filter`: on the first input whose
`capture_input_filter` returns 0 the manager's filter is nulled and FALSE
returned; when every input accepts, the filter expression is stored
(`g_strdup`) and TRUE returned. -/
def setFilterGo (inputs : List CaptureInput) (m : CaptureManager) (flt : String) :
    CaptureManager × Bool :=
  match inputs with
  | [] => ({ m with filter := some flt }, true)
  | i :: rest =>
    if i.filterOk flt then setFilterGo rest m flt
    else ({ m with filter := none }, false)

/-- `capture_manager_set_filter`: returns the updated manager and the
gboolean result. -/
def capture_manager_set_filter (m : CaptureManager) (flt : String) :
    CaptureManager × Bool :=
  setFilterGo m.inputs m flt

/-- `capture_manager_filter`: the stored filter string. -/
def capture_manager_filter (m : CaptureManager) : Option String :=
  m.filter

/-- `capture_manager_load_progress`: sum `total_size` and `loaded_size` over
ALL attached inputs in `guint64` accumulators, then return
`(loaded * 100) / total` truncated to `guint`.  When `total` is zero the C
division is undefined behaviour, modelled as `none`. -/
def capture_manager_load_progress (m : CaptureManager) : Option Nat :=
  let total := m.inputs.foldl (fun acc i => (acc + i.totalSize) % 2 ^ 64) 0
  let loaded := m.inputs.foldl (fun acc i => (acc + i.loadedSize) % 2 ^ 64) 0
  if total = 0 then none
  else some ((loaded * 100 % 2 ^ 64) / total % 2 ^ 32)

/-- The counting loop of `capture_status_desc`: accumulate
`(online, offline, loading)` where `loading` counts offline inputs whose
source has not been destroyed yet. -/
def statusCounts : List CaptureInput → Nat × Nat × Nat → Nat × Nat × Nat
  | [], acc => acc
  | i :: rest, acc =>
    statusCounts rest
      (match i.mode with
       | CaptureMode.offline =>
         (acc.1, acc.2.1 + 1, if i.sourceDestroyed then acc.2.2 else acc.2.2 + 1)
       | CaptureMode.online => (acc.1 + 1, acc.2.1, acc.2.2))

/-- `capture_status_desc`: the nested conditionals of `capture.c` verbatim,
first on the paused flag, then on the loading count, then on the
online/offline counts. -/
def capture_status_desc (m : CaptureManager) : String :=
  let c := statusCounts m.inputs (0, 0, 0)
  if m.paused then
    if 0 < c.1 ∧ c.2.1 = 0 then "Online (Paused)"
    else if c.1 = 0 ∧ 0 < c.2.1 then "Offline (Paused)"
    else "Mixed (Paused)"
  else if 0 < c.2.2 then
    if 0 < c.1 ∧ c.2.1 = 0 then "Online (Loading)"
    else if c.1 = 0 ∧ 0 < c.2.1 then "Offline (Loading)"
    else "Mixed (Loading)"
  else
    if 0 < c.1 ∧ c.2.1 = 0 then "Online"
    else if c.1 = 0 ∧ 0 < c.2.1 then "Offline"
    else "Mixed"

/-- The input loop of `capture_is_online`: FALSE on the first offline input,
TRUE when none is found. -/
def isOnlineGo : List CaptureInput → Bool
  | [] => true
  | i :: rest =>
    if i.mode = CaptureMode.offline then false else isOnlineGo rest

/-- `capture_is_online`. -/
def capture_is_online (m : CaptureManager) : Bool :=
  isOnlineGo m.inputs

/-! ## Specification-side definitions

These follow the spec's words, to be compared with the code-derived
definitions above (refinement claims C7). -/

/-- First component of the spec's status pair. -/
inductive StatusSource where
  | online
  | offline
  | mixed
deriving DecidableEq, Repr

/-- Second component of the spec's status pair. -/
inductive StatusActivity where
  | running
  | loading
  | paused
deriving DecidableEq, Repr

/-- Spec wording: `Online` iff at least one attached input is live and none
is offline, `Offline` iff at least one is offline and none is live, `Mixed`
otherwise. -/
def specStatusSource (m : CaptureManager) : StatusSource :=
  if (∃ i ∈ m.inputs, i.mode = CaptureMode.online) ∧
      (∀ i ∈ m.inputs, i.mode ≠ CaptureMode.offline) then StatusSource.online
  else if (∃ i ∈ m.inputs, i.mode = CaptureMode.offline) ∧
      (∀ i ∈ m.inputs, i.mode ≠ CaptureMode.online) then StatusSource.offline
  else StatusSource.mixed

/-- Spec wording: `Paused` whenever the paused flag is set, `Loading` when
not paused and some offline input's source has not terminated, `Running`
otherwise. -/
def specStatusActivity (m : CaptureManager) : StatusActivity :=
  if m.paused then StatusActivity.paused
  else if ∃ i ∈ m.inputs, i.mode = CaptureMode.offline ∧ i.sourceDestroyed = false then
    StatusActivity.loading
  else StatusActivity.running

/-- Render the spec's status pair as the strings `capture.c` produces. -/
def statusRender : StatusSource → StatusActivity → String
  | StatusSource.online, StatusActivity.running => "Online"
  | StatusSource.online, StatusActivity.loading => "Online (Loading)"
  | StatusSource.online, StatusActivity.paused => "Online (Paused)"
  | StatusSource.offline, StatusActivity.running => "Offline"
  | StatusSource.offline, StatusActivity.loading => "Offline (Loading)"
  | StatusSource.offline, StatusActivity.paused => "Offline (Paused)"
  | StatusSource.mixed, StatusActivity.running => "Mixed"
  | StatusSource.mixed, StatusActivity.loading => "Mixed (Loading)"
  | StatusSource.mixed, StatusActivity.paused => "Mixed (Paused)"

/-- Sum of the `total_size` counters of all attached inputs (no wrap). -/
def totalSum (m : CaptureManager) : Nat :=
  (m.inputs.map (fun i => i.totalSize)).sum

/-- Sum of the `loaded_size` counters of all attached inputs (no wrap). -/
def loadedSum (m : CaptureManager) : Nat :=
  (m.inputs.map (fun i => i.loadedSize)).sum

/-- A live input that accepts every filter expression (for witnesses). -/
def acceptingInput : CaptureInput :=
  ⟨CaptureMode.online, false, 0, 0, fun _ => true⟩

/-- An offline input that rejects every filter expression (for witnesses). -/
def rejectingInput : CaptureInput :=
  ⟨CaptureMode.offline, true, 10, 10, fun _ => false⟩

/-- Manager whose single input accepts the filter. -/
def wManagerA : CaptureManager := ⟨[acceptingInput], false, none⟩

/-- Manager with a rejecting input and a filter left by an earlier
successful call. -/
def wManagerB : CaptureManager := ⟨[acceptingInput, rejectingInput], false, some "old"⟩

/-- Manager with only a live input: summed `total_size` is zero. -/
def liveOnlyManager : CaptureManager :=
  ⟨[⟨CaptureMode.online, false, 0, 5, fun _ => true⟩], false, none⟩

/-- Manager mixing a live input (loaded bytes, zero total) with an offline
input that has finished loading. -/
def mixedManager : CaptureManager :=
  ⟨[⟨CaptureMode.online, false, 0, 60, fun _ => true⟩,
    ⟨CaptureMode.offline, false, 10, 10, fun _ => true⟩], false, none⟩

/-! ## Theorems -/

theorem setFilterGo_all (flt : String) :
    ∀ (l : List CaptureInput) (m : CaptureManager),
      (∀ i ∈ l, i.filterOk flt = true) →
      setFilterGo l m flt = ({ m with filter := some flt }, true) := by
  intro l
  induction l with
  | nil => intro m _; rfl
  | cons i rest ih =>
    intro m h
    have hi : i.filterOk flt = true := h i (List.mem_cons_self i rest)
    simp only [setFilterGo, hi, if_true]
    exact ih m (fun j hj => h j (List.mem_cons_of_mem i hj))

theorem setFilterGo_fail (flt : String) :
    ∀ (l : List CaptureInput) (m : CaptureManager),
      (∃ i ∈ l, i.filterOk flt = false) →
      setFilterGo l m flt = ({ m with filter := none }, false) := by
  intro l
  induction l with
  | nil => intro m h; exact absurd h (by simp)
  | cons i rest ih =>
    intro m h
    by_cases hi : i.filterOk flt = true
    · simp only [setFilterGo, hi, if_true]
      apply ih
      rcases h with ⟨j, hj, hjf⟩
      rcases List.mem_cons.mp hj with rfl | hj'
      · rw [hi] at hjf; cases hjf
      · exact ⟨j, hj', hjf⟩
    · simp [setFilterGo, hi]

/-- C1: `capture_manager_set_filter` returns TRUE and stores a copy of the
expression when every attached input accepts it; when any input rejects it,
it returns FALSE and the manager's filter string is nulled, even if an
earlier successful call had set one; `capture_manager_filter` reports that
stored string. -/
theorem capture_manager_set_filter_spec (m : CaptureManager) (expr : String) :
    ((∀ i ∈ m.inputs, i.filterOk expr = true) →
      capture_manager_set_filter m expr = ({ m with filter := some expr }, true) ∧
      capture_manager_filter (capture_manager_set_filter m expr).1 = some expr) ∧
    ((∃ i ∈ m.inputs, i.filterOk expr = false) →
      (capture_manager_set_filter m expr).2 = false ∧
      capture_manager_filter (capture_manager_set_filter m expr).1 = none) := by
  constructor
  · intro h
    have := setFilterGo_all expr m.inputs m h
    constructor
    · exact this
    · rw [capture_manager_set_filter, this]; rfl
  · intro h
    have := setFilterGo_fail expr m.inputs m h
    constructor
    · rw [capture_manager_set_filter, this]
    · rw [capture_manager_set_filter, this]; rfl

/-- C1 witness: the theorem applied to a one-input accepting manager and to
a manager whose second input rejects while an earlier filter was stored. -/
theorem capture_manager_set_filter_spec_witness :
    (capture_manager_set_filter wManagerA "port 5060" =
        ({ wManagerA with filter := some "port 5060" }, true) ∧
      capture_manager_filter (capture_manager_set_filter wManagerA "port 5060").1 =
        some "port 5060") ∧
    ((capture_manager_set_filter wManagerB "port 5060").2 = false ∧
      capture_manager_filter (capture_manager_set_filter wManagerB "port 5060").1 = none) :=
  ⟨(capture_manager_set_filter_spec wManagerA "port 5060").1
      (by intro i hi; simp only [wManagerA, List.mem_singleton] at hi; subst hi; rfl),
    (capture_manager_set_filter_spec wManagerB "port 5060").2
      ⟨rejectingInput, by simp [wManagerB], rfl⟩⟩

theorem foldl_mod64_eq_sum (f : CaptureInput → Nat) :
    ∀ (l : List CaptureInput) (acc : Nat), acc + (l.map f).sum < 2 ^ 64 →
      l.foldl (fun a i => (a + f i) % 2 ^ 64) acc = acc + (l.map f).sum := by
  intro l
  induction l with
  | nil => intro acc _; simp
  | cons i rest ih =>
    intro acc h
    simp only [List.map_cons, List.sum_cons] at h ⊢
    rw [List.foldl_cons, Nat.mod_eq_of_lt (by omega), ih (acc + f i) (by omega)]
    omega

/-- C2 counterexample: with only a live input attached the summed
`total_size` is zero and `(loaded * 100) / total` divides by zero (modelled
`none`), and mixing a live input's loaded bytes with an offline input yields
700, far above 100 — refuting the claim that the result is always a
well-defined value in 0..100. -/
theorem capture_manager_load_progress_cex :
    capture_manager_load_progress liveOnlyManager = none ∧
    capture_manager_load_progress mixedManager = some 700 :=
  ⟨rfl, rfl⟩

/-- C2 amended: `capture_manager_load_progress` sums `loaded`/`total` over
ALL attached inputs (live ones included, not only offline ones); whenever
the summed total is positive, the summed loaded bytes do not exceed it and
`total * 100` fits in 64 bits, the result is defined and equals
`(loaded * 100) / total`, which lies in 0..100.  With only live inputs the
total is zero and the division is undefined; live loaded bytes can push the
result above 100. -/
theorem capture_manager_load_progress_amended (m : CaptureManager)
    (hpos : 0 < totalSum m) (hle : loadedSum m ≤ totalSum m)
    (hov : totalSum m * 100 < 2 ^ 64) :
    capture_manager_load_progress m = some (loadedSum m * 100 / totalSum m) ∧
    loadedSum m * 100 / totalSum m ≤ 100 := by
  have htot : totalSum m < 2 ^ 64 := by omega
  have hload : loadedSum m < 2 ^ 64 := by omega
  have hmul : loadedSum m * 100 ≤ totalSum m * 100 := Nat.mul_le_mul_right 100 hle
  have hdiv : loadedSum m * 100 / totalSum m ≤ 100 := by
    calc loadedSum m * 100 / totalSum m
        ≤ totalSum m * 100 / totalSum m := Nat.div_le_div_right hmul
      _ = 100 := Nat.mul_div_cancel_left 100 hpos
  refine ⟨?_, hdiv⟩
  have ht := foldl_mod64_eq_sum (fun i => i.totalSize) m.inputs 0 (by simpa [totalSum] using htot)
  have hl := foldl_mod64_eq_sum (fun i => i.loadedSize) m.inputs 0 (by simpa [loadedSum] using hload)
  simp only [Nat.zero_add] at ht hl
  unfold capture_manager_load_progress
  rw [ht, hl]
  rw [show (List.map (fun i => i.totalSize) m.inputs).sum = totalSum m from rfl,
    show (List.map (fun i => i.loadedSize) m.inputs).sum = loadedSum m from rfl]
  rw [if_neg (show ¬ totalSum m = 0 by omega)]
  rw [Nat.mod_eq_of_lt (show loadedSum m * 100 < 2 ^ 64 by omega)]
  rw [Nat.mod_eq_of_lt (lt_of_le_of_lt hdiv (by norm_num))]

/-- C2 amended witness: a manager with two offline inputs at 30 of 60 and
10 of 40 bytes loaded reports 40 percent. -/
theorem capture_manager_load_progress_amended_witness :
    capture_manager_load_progress
        ⟨[⟨CaptureMode.offline, false, 60, 30, fun _ => true⟩,
          ⟨CaptureMode.offline, false, 40, 10, fun _ => true⟩], false, none⟩ = some 40 := by
  have h := capture_manager_load_progress_amended
    ⟨[⟨CaptureMode.offline, false, 60, 30, fun _ => true⟩,
      ⟨CaptureMode.offline, false, 40, 10, fun _ => true⟩], false, none⟩
    (by norm_num [totalSum]) (by norm_num [totalSum, loadedSum]) (by norm_num [totalSum])
  simpa [totalSum, loadedSum] using h.1

/-- C3: dissecting the INVITE body of the spec's SDP media-extraction
scenario attaches SDP data with exactly one media descriptor of type audio,
RTP port 4000, and a two-entry format list whose first entry is named
`PCMU/8000` (the second resolving to `PCMA/8000`). -/
theorem packet_dissector_sdp_dissect_media_extraction :
    packet_dissector_sdp_dissect
        "v=0\r\nc=IN IP4 10.0.0.1\r\nm=audio 4000 RTP/AVP 0 8\r\na=rtpmap:0 PCMU/8000" =
      some
        { sconn := some ⟨"10.0.0.1"⟩
          medias := [{ type := PacketSdpMediaType.audio
                       sconn := none
                       rtpport := 4000
                       rtcpport := 0
                       address := some ⟨"10.0.0.1", 4000⟩
                       channel := none
                       formats := [⟨0, some "PCMU/8000", some "g711u"⟩,
                                   ⟨8, some "PCMA/8000", some "g711a"⟩] }] } := by
  rfl

theorem isOnlineGo_iff :
    ∀ l : List CaptureInput,
      (isOnlineGo l = true ↔ ∀ i ∈ l, i.mode = CaptureMode.online) := by
  intro l
  induction l with
  | nil => simp [isOnlineGo]
  | cons i rest ih =>
    by_cases hi : i.mode = CaptureMode.offline
    · have : i.mode ≠ CaptureMode.online := by rw [hi]; intro h; cases h
      simp [isOnlineGo, hi, this]
    · have hon : i.mode = CaptureMode.online := by
        cases h : i.mode
        · rfl
        · exact absurd h hi
      simp [isOnlineGo, hi, ih, hon]

/-- C8: `capture_is_online` returns TRUE exactly when no attached input is
offline, i.e. every attached input is live; with no inputs attached it is
vacuously TRUE. -/
theorem capture_is_online_spec (m : CaptureManager) :
    (capture_is_online m = true ↔ ∀ i ∈ m.inputs, i.mode = CaptureMode.online) ∧
    capture_is_online { m with inputs := [] } = true :=
  ⟨isOnlineGo_iff m.inputs, rfl⟩

theorem statusCounts_eq :
    ∀ (l : List CaptureInput) (a b c : Nat),
      statusCounts l (a, b, c) =
        (a + (l.countP fun i => decide (i.mode = CaptureMode.online)),
          b + (l.countP fun i => decide (i.mode = CaptureMode.offline)),
          c + (l.countP fun i => decide (i.mode = CaptureMode.offline) && !i.sourceDestroyed)) := by
  intro l
  induction l with
  | nil => intro a b c; simp [statusCounts]
  | cons i rest ih =>
    intro a b c
    cases hm : i.mode
    · simp only [statusCounts, hm, ih, List.countP_cons]
      simp [hm]
      omega
    · cases hd : i.sourceDestroyed
      · simp only [statusCounts, hm, hd, ih, List.countP_cons]
        simp [hm, hd]
        omega
      · simp only [statusCounts, hm, hd, ih, List.countP_cons]
        simp [hm, hd]
        omega

/-- C7: the status string produced by `capture_status_desc` equals the
rendering of the spec's status pair: the first component is `Online` iff at
least one input is live and none is offline, `Offline` iff at least one is
offline and none is live, `Mixed` otherwise; the second is `Paused` whenever
the paused flag is set (taking precedence over loading), `Loading` when not
paused and some offline input's source has not terminated, `Running`
otherwise. -/
theorem capture_status_desc_spec (m : CaptureManager) :
    capture_status_desc m = statusRender (specStatusSource m) (specStatusActivity m) := by
  have hc := statusCounts_eq m.inputs 0 0 0
  simp only [Nat.zero_add] at hc
  have hOn : (0 < (m.inputs.countP fun i => decide (i.mode = CaptureMode.online))) ↔
      ∃ i ∈ m.inputs, i.mode = CaptureMode.online := by
    rw [List.countP_pos_iff]; simp
  have hOff : (0 < (m.inputs.countP fun i => decide (i.mode = CaptureMode.offline))) ↔
      ∃ i ∈ m.inputs, i.mode = CaptureMode.offline := by
    rw [List.countP_pos_iff]; simp
  have hOnZ : ((m.inputs.countP fun i => decide (i.mode = CaptureMode.online)) = 0) ↔
      ∀ i ∈ m.inputs, i.mode ≠ CaptureMode.online := by
    rw [List.countP_eq_zero]; simp
  have hOffZ : ((m.inputs.countP fun i => decide (i.mode = CaptureMode.offline)) = 0) ↔
      ∀ i ∈ m.inputs, i.mode ≠ CaptureMode.offline := by
    rw [List.countP_eq_zero]; simp
  have hLoad : (0 < (m.inputs.countP fun i =>
        decide (i.mode = CaptureMode.offline) && !i.sourceDestroyed)) ↔
      ∃ i ∈ m.inputs, i.mode = CaptureMode.offline ∧ i.sourceDestroyed = false := by
    rw [List.countP_pos_iff]
    simp [Bool.and_eq_true, Bool.not_eq_true']
  have e1 : (0 < (m.inputs.countP fun i => decide (i.mode = CaptureMode.online)) ∧
      (m.inputs.countP fun i => decide (i.mode = CaptureMode.offline)) = 0) ↔
      ((∃ i ∈ m.inputs, i.mode = CaptureMode.online) ∧
        ∀ i ∈ m.inputs, i.mode ≠ CaptureMode.offline) := and_congr hOn hOffZ
  have e2 : ((m.inputs.countP fun i => decide (i.mode = CaptureMode.online)) = 0 ∧
      0 < (m.inputs.countP fun i => decide (i.mode = CaptureMode.offline))) ↔
      ((∃ i ∈ m.inputs, i.mode = CaptureMode.offline) ∧
        ∀ i ∈ m.inputs, i.mode ≠ CaptureMode.online) :=
    ⟨fun h => ⟨hOff.mp h.2, hOnZ.mp h.1⟩, fun h => ⟨hOnZ.mpr h.2, hOff.mpr h.1⟩⟩
  unfold capture_status_desc specStatusSource specStatusActivity
  simp only [hc, e1, e2, hLoad]
  split_ifs <;> rfl

theorem mediaTypeLookup_notin :
    ∀ (tbl : List (String × PacketSdpMediaType)) (s : String),
      (∀ p ∈ tbl, asciiLowerStr s ≠ asciiLowerStr p.1) →
      mediaTypeLookup tbl s = PacketSdpMediaType.unknown := by
  intro tbl
  induction tbl with
  | nil => intro s _; rfl
  | cons p rest ih =>
    intro s h
    have hp : gAsciiCaseEq s p.1 = false := by
      have := h p (List.mem_cons_self p rest)
      simp [gAsciiCaseEq, this]
    simp only [mediaTypeLookup, hp, Bool.false_eq_true, if_false]
    exact ih s (fun q hq => h q (List.mem_cons_of_mem p hq))

/-- C10: the SDP media-type mapping round-trips for the six known media
types; `packet_sdp_media_type_str` returns NULL for `SDP_MEDIA_UNKNOWN`; and
`packet_sdp_media_type` returns `SDP_MEDIA_UNKNOWN` for every string that is
case-insensitively different from every table entry. -/
theorem packet_sdp_media_type_roundtrip :
    (∀ t : PacketSdpMediaType, t ≠ PacketSdpMediaType.unknown →
      ∃ s, packet_sdp_media_type_str t = some s ∧ packet_sdp_media_type s = t) ∧
    packet_sdp_media_type_str PacketSdpMediaType.unknown = none ∧
    (∀ s : String, (∀ p ∈ media_types, asciiLowerStr s ≠ asciiLowerStr p.1) →
      packet_sdp_media_type s = PacketSdpMediaType.unknown) := by
  refine ⟨?_, rfl, mediaTypeLookup_notin media_types⟩
  intro t ht
  cases t
  · exact absurd rfl ht
  · exact ⟨"audio", rfl, by decide⟩
  · exact ⟨"video", rfl, by decide⟩
  · exact ⟨"text", rfl, by decide⟩
  · exact ⟨"application", rfl, by decide⟩
  · exact ⟨"message", rfl, by decide⟩
  · exact ⟨"image", rfl, by decide⟩

theorem foldl_concat_eq_map {α β : Type} (f : α → β) :
    ∀ (l : List α) (acc : List β),
      l.foldl (fun a t => a ++ [f t]) acc = acc ++ l.map f := by
  intro l
  induction l with
  | nil => intro acc; simp
  | cons x xs ih => intro acc; simp [ih]

/-- C6: a well-formed `m=` line yields a media whose format list has exactly
one entry per listed `<fmt>` token, in the listed order; a token whose code
is not in the standard `formats[]` table contributes a record carrying only
that numeric id, with name and alias unset. -/
theorem packet_sdp_media_formats_spec (sconn : Option PacketSdpConnection)
    (content mt pt proto fmts : String)
    (hsplit : gStrsplit content " " 4 = [mt, pt, proto, fmts]) :
    ∃ med, packet_sdp_dissect_media sconn content = some med ∧
      med.formats = (gStrsplit fmts " " 0).map sdpFormatOfToken ∧
      med.formats.length = (gStrsplit fmts " " 0).length ∧
      ∀ tok ∈ gStrsplit fmts " " 0,
        packet_sdp_standard_format (cStrtoul tok % 2 ^ 32) = none →
          sdpFormatOfToken tok = ⟨cStrtoul tok % 2 ^ 32, none, none⟩ := by
  unfold packet_sdp_dissect_media
  rw [hsplit]
  simp only [List.length_cons, List.length_nil, Nat.lt_irrefl, if_false,
    List.get!_cons_zero, List.get!_cons_succ]
  refine ⟨_, rfl, ?_, ?_, ?_⟩
  · simp [foldl_concat_eq_map]
  · simp [foldl_concat_eq_map]
  · intro tok _ h
    simp only [sdpFormatOfToken]
    rw [h]

/-- C6 witness: an `m=` line listing the unknown payload code 96 after the
well-known code 0. -/
theorem packet_sdp_media_formats_spec_witness :
    ∃ med, packet_sdp_dissect_media none "audio 4000 RTP/AVP 0 96" = some med ∧
      med.formats = (gStrsplit "0 96" " " 0).map sdpFormatOfToken ∧
      med.formats.length = (gStrsplit "0 96" " " 0).length ∧
      ∀ tok ∈ gStrsplit "0 96" " " 0,
        packet_sdp_standard_format (cStrtoul tok % 2 ^ 32) = none →
          sdpFormatOfToken tok = ⟨cStrtoul tok % 2 ^ 32, none, none⟩ :=
  packet_sdp_media_formats_spec none "audio 4000 RTP/AVP 0 96" "audio" "4000"
    "RTP/AVP" "0 96" (by decide)

/-- A media under construction, used by the SDP witnesses. -/
def wMedia : PacketSdpMedia :=
  ⟨PacketSdpMediaType.audio, none, 4000, 0, some ⟨"10.0.0.1", 4000⟩, none,
    [⟨0, some "PCMU/8000", some "g711u"⟩]⟩

/-- A media whose only format is the unknown payload code 96. -/
def wMedia96 : PacketSdpMedia :=
  ⟨PacketSdpMediaType.audio, none, 4000, 0, none, none, [⟨96, none, none⟩]⟩

/-- The media `packet_sdp_dissect_media` builds from
`m=audio 4000 RTP/AVP 0` under the session connection `10.0.0.1`. -/
def wMediaConn : PacketSdpMedia :=
  ⟨PacketSdpMediaType.audio, none, 4000, 0, some ⟨"10.0.0.1", 4000⟩, none,
    [⟨0, some "PCMU/8000", some "g711u"⟩]⟩

/-- The SDP body of the C4 counterexample: payload code 0 is in the static
table, so the rtpmap rename is ignored. -/
def rtpmapCexBody : String := "m=audio 4000 RTP/AVP 0\r\na=rtpmap:0 FOO/8000"

/-- C4 counterexample: for a media whose format list contains the
payload-type code 0, the line `a=rtpmap:0 FOO/8000` does NOT fill the format
entry's name with `FOO`: code 0 is one of the well-known static formats, so
`packet_sdp_dissect_attribute` leaves the table record (named `PCMU/8000`)
untouched, refuting the claim as stated. -/
theorem packet_sdp_dissect_attribute_cex :
    (packet_dissector_sdp_dissect rtpmapCexBody).map
        (fun d => d.medias.map fun me => me.formats.map fun f => f.name) =
      some [[some "PCMU/8000"]] ∧
    (some [[some "PCMU/8000"]] : Option (List (List (Option String)))) ≠
      some [[some "FOO"]] :=
  ⟨rfl, by decide⟩

/-- C4 amended: `a=rtpmap:<c> <name>/<rate>` fills the name (and alias) of
the format entry with id `c` with `<name>`, but only when `c` is not one of
the well-known static payload types — entries for well-known codes keep
their table name (see the counterexample); the first matching entry is the
one renamed. `a=rtcp:<port>` sets the media's RTCP port to `<port>`
truncated to 16 bits, and `a=channel:<tag>` sets the MRCP channel tag to
`<tag>` (the token up to the next space, colon or slash). -/
theorem packet_sdp_dissect_attribute_amended :
    (∀ (m : PacketSdpMedia) (content cstr nm : String) (rest : List String),
      gStrsplitSet content sdpAttrDelims = "rtpmap" :: cstr :: nm :: rest →
      packet_sdp_standard_format (cStrtoul cstr % 2 ^ 32) = none →
      packet_sdp_dissect_attribute (some m) content =
        some (some { m with formats := sdpFormatsSetName m.formats (cStrtoul cstr % 2 ^ 32) nm })) ∧
    (∀ (pre post : List PacketSdpFormat) (f : PacketSdpFormat) (nm : String),
      (∀ g ∈ pre, g.id ≠ f.id) →
      sdpFormatsSetName (pre ++ f :: post) f.id nm =
        pre ++ { f with name := some nm, «alias» := some nm } :: post) ∧
    (∀ (m : PacketSdpMedia) (content vstr : String) (rest : List String),
      gStrsplitSet content sdpAttrDelims = "rtcp" :: vstr :: rest →
      packet_sdp_dissect_attribute (some m) content =
        some (some { m with rtcpport := cStrtoul vstr % 2 ^ 16 })) ∧
    (∀ (m : PacketSdpMedia) (content vstr : String) (rest : List String),
      gStrsplitSet content sdpAttrDelims = "channel" :: vstr :: rest →
      packet_sdp_dissect_attribute (some m) content =
        some (some { m with channel := some vstr })) := by
  refine ⟨?_, ?_, ?_, ?_⟩
  · intro m content cstr nm rest hsplit hstd
    unfold packet_sdp_dissect_attribute
    rw [hsplit]
    simp only [List.length_cons, List.get!_cons_zero, List.get!_cons_succ]
    rw [if_neg (by omega), if_pos (by decide), if_neg (by omega), hstd]
  · intro pre post f nm hpre
    induction pre with
    | nil => simp [sdpFormatsSetName]
    | cons g pre' ih =>
      have hg : g.id ≠ f.id := hpre g (List.mem_cons_self g pre')
      simp only [List.cons_append, sdpFormatsSetName, if_neg hg, List.append_eq]
      rw [ih (fun q hq => hpre q (List.mem_cons_of_mem g hq))]
  · intro m content vstr rest hsplit
    unfold packet_sdp_dissect_attribute
    rw [hsplit]
    simp only [List.length_cons, List.get!_cons_zero, List.get!_cons_succ]
    rw [if_neg (by omega), if_neg (by decide), if_pos (by decide)]
  · intro m content vstr rest hsplit
    unfold packet_sdp_dissect_attribute
    rw [hsplit]
    simp only [List.length_cons, List.get!_cons_zero, List.get!_cons_succ]
    rw [if_neg (by omega), if_neg (by decide), if_neg (by decide), if_pos (by decide)]

/-- C4 amended witness: the theorem applied to `a=rtpmap:96 opus/48000` on a
media listing the unknown code 96, to the localisation of the rename inside
the format list, and to `a=rtcp:4001` and `a=channel:32@sr` lines. -/
theorem packet_sdp_dissect_attribute_amended_witness :
    (packet_sdp_dissect_attribute (some wMedia96) "rtpmap:96 opus/48000" =
      some (some { wMedia96 with formats := sdpFormatsSetName wMedia96.formats (cStrtoul "96" % 2 ^ 32) "opus" })) ∧
    (sdpFormatsSetName ([] ++ (⟨96, none, none⟩ : PacketSdpFormat) :: [])
        (96 : Nat) "opus" =
      [] ++ (⟨96, some "opus", some "opus"⟩ : PacketSdpFormat) :: []) ∧
    (packet_sdp_dissect_attribute (some wMedia) "rtcp:4001" =
      some (some { wMedia with rtcpport := cStrtoul "4001" % 2 ^ 16 })) ∧
    (packet_sdp_dissect_attribute (some wMedia) "channel:32@sr" =
      some (some { wMedia with channel := some "32@sr" })) :=
  ⟨packet_sdp_dissect_attribute_amended.1 wMedia96 "rtpmap:96 opus/48000" "96"
      "opus" ["48000"] (by decide) (by decide),
    packet_sdp_dissect_attribute_amended.2.1 [] [] ⟨96, none, none⟩ "opus"
      (by intro g hg; cases hg),
    packet_sdp_dissect_attribute_amended.2.2.1 wMedia "rtcp:4001" "4001" []
      (by decide),
    packet_sdp_dissect_attribute_amended.2.2.2 wMedia "channel:32@sr" "32@sr" []
      (by decide)⟩

theorem strMk_toList (s : String) : String.mk s.toList = s := rfl

theorem dissect_attribute_preserves (m : PacketSdpMedia) (content : String) :
    ∃ m', packet_sdp_dissect_attribute (some m) content = some (some m') ∧
      m'.address = m.address := by
  simp only [packet_sdp_dissect_attribute]
  split_ifs <;> try exact ⟨_, rfl, rfl⟩
  cases hs : packet_sdp_standard_format
      (cStrtoul ((gStrsplitSet content sdpAttrDelims).get! 1) % 2 ^ 32) <;>
    exact ⟨_, rfl, rfl⟩

theorem sdpRun_preserves_media :
    ∀ (lines : List String) (s : SdpState) (m : PacketSdpMedia) (s' : SdpState),
      s.current = some m →
      (∀ l ∈ lines, l.toList.head? ≠ some 'c' ∧ l.toList.head? ≠ some 'm') →
      List.foldlM sdpStepLine s lines = some s' →
      ∃ m', s'.current = some m' ∧ m'.address = m.address ∧ s'.medias = s.medias := by
  intro lines
  induction lines with
  | nil =>
    intro s m s' hc _ hrun
    simp only [List.foldlM_nil] at hrun
    injection hrun with h
    subst h
    exact ⟨m, hc, rfl, rfl⟩
  | cons l rest ih =>
    intro s m s' hc hno hrun
    obtain ⟨cs⟩ := l
    rw [List.foldlM_cons] at hrun
    obtain ⟨s1, hstep, hrest⟩ := Option.bind_eq_some.mp hrun
    have hl := hno (String.mk cs) (List.mem_cons_self (String.mk cs) rest)
    have hnorest : ∀ q ∈ rest, q.toList.head? ≠ some 'c' ∧ q.toList.head? ≠ some 'm' :=
      fun q hq => hno q (List.mem_cons_of_mem (String.mk cs) hq)
    rcases cs with _ | ⟨ch, tl⟩
    · have hid : sdpStepLine s (String.mk []) = some s := rfl
      rw [hid] at hstep
      injection hstep with h
      subst h
      exact ih s m s' hc hnorest hrest
    · have hch1 : ch ≠ 'c' := by
        intro h
        exact hl.1 (by simp [String.toList, h])
      have hch2 : ch ≠ 'm' := by
        intro h
        exact hl.2 (by simp [String.toList, h])
      by_cases hca : ch = 'a'
      · subst hca
        rcases tl with _ | ⟨c2, tl2⟩
        · have hub : sdpStepLine s (String.mk ['a']) = none := rfl
          rw [hub] at hstep
          cases hstep
        · have hattr0 : sdpStepLine s (String.mk ('a' :: c2 :: tl2)) =
              (packet_sdp_dissect_attribute s.current (String.mk tl2)).map
                (fun cur' => { s with current := cur' }) := rfl
          obtain ⟨m2, hattr, haddr⟩ := dissect_attribute_preserves m (String.mk tl2)
          rw [hattr0, hc, hattr] at hstep
          simp only [Option.map_some'] at hstep
          injection hstep with h
          subst h
          obtain ⟨m', h1, h2, h3⟩ := ih _ m2 s' rfl hnorest hrest
          exact ⟨m', h1, h2.trans haddr, h3⟩
      · have hid : sdpStepLine s (String.mk (ch :: tl)) = some s := by
          unfold sdpStepLine
          simp [String.toList, hch1, hch2, hca]
        rw [hid] at hstep
        injection hstep with h
        subst h
        exact ih s m s' hc hnorest hrest

/-- C5: a `c=` line with no media open sets the session-level connection
address; a `c=` line while a media is open sets that media's own connection
address and rebuilds its RTP address from that address and its RTP port,
overriding the session-level one; a media created under a session-level
connection gets its RTP address from that address and its port; and over any
run of lines containing no `c=` (and no further `m=`) line, the open media's
RTP address is preserved, as is the list of completed medias. -/
theorem packet_sdp_connection_spec :
    (∀ (s : SdpState) (content nt a2 addr : String),
      s.current = none → gStrsplit content " " 3 = [nt, a2, addr] →
      packet_sdp_dissect_connection s content = { s with sconn := some ⟨addr⟩ }) ∧
    (∀ (s : SdpState) (m : PacketSdpMedia) (content nt a2 addr : String),
      s.current = some m → gStrsplit content " " 3 = [nt, a2, addr] →
      packet_sdp_dissect_connection s content =
        { s with current := some { m with sconn := some ⟨addr⟩, address := some ⟨addr, m.rtpport⟩ } }) ∧
    (∀ (sc : PacketSdpConnection) (content : String) (med : PacketSdpMedia),
      packet_sdp_dissect_media (some sc) content = some med →
      med.address = some ⟨sc.address, med.rtpport⟩) ∧
    (∀ (lines : List String) (s : SdpState) (m : PacketSdpMedia) (s' : SdpState),
      s.current = some m →
      (∀ l ∈ lines, l.toList.head? ≠ some 'c' ∧ l.toList.head? ≠ some 'm') →
      List.foldlM sdpStepLine s lines = some s' →
      ∃ m', s'.current = some m' ∧ m'.address = m.address ∧ s'.medias = s.medias) := by
  refine ⟨?_, ?_, ?_, sdpRun_preserves_media⟩
  · intro s content nt a2 addr hcur hsplit
    unfold packet_sdp_dissect_connection
    rw [hsplit, hcur]
    simp
  · intro s m content nt a2 addr hcur hsplit
    unfold packet_sdp_dissect_connection
    rw [hsplit, hcur]
    simp
  · intro sc content med h
    simp only [packet_sdp_dissect_media] at h
    split at h
    · cases h
    · injection h with h
      subst h
      simp

/-- C5 witness: the theorem applied to a session-level `c=` line, a
per-media `c=` line, a media built under the session connection, and a run
of one `a=rtcp` line that leaves the open media's RTP address unchanged. -/
theorem packet_sdp_connection_spec_witness :
    (packet_sdp_dissect_connection ⟨none, [], none⟩ "IN IP4 10.0.0.1" =
      { sconn := some ⟨"10.0.0.1"⟩, medias := [], current := none }) ∧
    (packet_sdp_dissect_connection ⟨none, [], some wMedia⟩ "IN IP4 10.0.0.2" =
      { sconn := none, medias := [],
        current := some { wMedia with sconn := some ⟨"10.0.0.2"⟩,
                                      address := some ⟨"10.0.0.2", wMedia.rtpport⟩ } }) ∧
    (wMediaConn.address = some ⟨"10.0.0.1", wMediaConn.rtpport⟩) ∧
    (∃ m', (SdpState.mk none [] (some { wMedia with rtcpport := 4001 })).current = some m' ∧
      m'.address = wMedia.address ∧
      (SdpState.mk none [] (some { wMedia with rtcpport := 4001 })).medias =
        (SdpState.mk none [] (some wMedia)).medias) :=
  ⟨packet_sdp_connection_spec.1 ⟨none, [], none⟩ "IN IP4 10.0.0.1"
      "IN" "IP4" "10.0.0.1" rfl (by decide),
    packet_sdp_connection_spec.2.1 ⟨none, [], some wMedia⟩ wMedia "IN IP4 10.0.0.2"
      "IN" "IP4" "10.0.0.2" rfl (by decide),
    packet_sdp_connection_spec.2.2.1 ⟨"10.0.0.1"⟩ "audio 4000 RTP/AVP 0" wMediaConn
      (by decide),
    packet_sdp_connection_spec.2.2.2 ["a=rtcp:4001"] ⟨none, [], some wMedia⟩ wMedia
      ⟨none, [], some { wMedia with rtcpport := 4001 }⟩ rfl (by decide) (by decide)⟩

theorem sdpStepLine_mline (s : SdpState) (content : String) :
    sdpStepLine s (String.mk ('m' :: '=' :: content.toList)) =
      match packet_sdp_dissect_media s.sconn content with
      | some m => some { sdpFlush s with current := some m }
      | none => some (sdpFlush s) := by
  cases h : packet_sdp_dissect_media s.sconn content <;>
    simp [sdpStepLine, strMk_toList, h, sdpFlush]

/-- C9: appending a well-formed `m=` line (four space-separated fields)
followed by a malformed `m=` line (fewer than four fields) to any crash-free
prefix completes the dissection without error: the resulting SDP data
contains exactly the descriptor built from the well-formed line appended to
the prefix's medias, and nothing at all for the malformed line. -/
theorem packet_sdp_malformed_media_skip (pre : List String) (s : SdpState)
    (goodC badC : String)
    (hpre : sdpRunLines pre = some s)
    (hgood : (gStrsplit goodC " " 4).length = 4)
    (hbad : (gStrsplit badC " " 4).length < 4) :
    ∃ med, packet_sdp_dissect_media s.sconn goodC = some med ∧
      sdpDissectLines (pre ++
          [String.mk ('m' :: '=' :: goodC.toList), String.mk ('m' :: '=' :: badC.toList)]) =
        some { sconn := s.sconn, medias := (sdpFlush s).medias ++ [med] } := by
  have hmed : ∃ med, packet_sdp_dissect_media s.sconn goodC = some med := by
    unfold packet_sdp_dissect_media
    rw [if_neg (by omega)]
    exact ⟨_, rfl⟩
  obtain ⟨med, hmed⟩ := hmed
  refine ⟨med, hmed, ?_⟩
  have hbadmed : ∀ sc, packet_sdp_dissect_media sc badC = none := by
    intro sc
    unfold packet_sdp_dissect_media
    rw [if_pos hbad]
  unfold sdpDissectLines sdpRunLines
  unfold sdpRunLines at hpre
  rw [List.foldlM_append, hpre]
  show (List.foldlM sdpStepLine s
      [String.mk ('m' :: '=' :: goodC.toList), String.mk ('m' :: '=' :: badC.toList)]).map
        sdpFinalize = _
  rw [List.foldlM_cons, sdpStepLine_mline, hmed]
  show (List.foldlM sdpStepLine { sdpFlush s with current := some med }
      [String.mk ('m' :: '=' :: badC.toList)]).map sdpFinalize = _
  rw [List.foldlM_cons, sdpStepLine_mline, hbadmed]
  simp [sdpFinalize, sdpFlush]

/-- C9 witness: the theorem applied to the prefix `["v=0"]`, the well-formed
media line `m=audio 4000 RTP/AVP 0 8` and the malformed `m=audio 4000
RTP/AVP`. -/
theorem packet_sdp_malformed_media_skip_witness :
    ∃ med, packet_sdp_dissect_media (none : Option PacketSdpConnection)
        "audio 4000 RTP/AVP 0 8" = some med ∧
      sdpDissectLines (["v=0"] ++
          [String.mk ('m' :: '=' :: "audio 4000 RTP/AVP 0 8".toList),
            String.mk ('m' :: '=' :: "audio 4000 RTP/AVP".toList)]) =
        some { sconn := none,
               medias := (sdpFlush ⟨none, [], none⟩).medias ++ [med] } :=
  packet_sdp_malformed_media_skip ["v=0"] ⟨none, [], none⟩
    "audio 4000 RTP/AVP 0 8" "audio 4000 RTP/AVP" (by decide) (by decide) (by decide)

/-- C10 witness: the round trip at `audio` and the unknown fallback at
`"foo"`. -/
theorem packet_sdp_media_type_roundtrip_witness :
    (∃ s, packet_sdp_media_type_str PacketSdpMediaType.audio = some s ∧
      packet_sdp_media_type s = PacketSdpMediaType.audio) ∧
    packet_sdp_media_type "foo" = PacketSdpMediaType.unknown :=
  ⟨packet_sdp_media_type_roundtrip.1 PacketSdpMediaType.audio (by decide),
    packet_sdp_media_type_roundtrip.2.2 "foo" (by decide)⟩
